import Mathlib

/-!
Shallow embedding of the libp2p-rpc correlation layer (src/src/RPC.ts).

The RPC node keeps a method registry (`methods`), a pending-call tracker
(`msgPromises`, mapping a message id to its promise resolver), a counter
`genMsgId` (modelled by the `nextId` field), and a configured `timeout`.
Each outbound request's promise is modelled as an entry of `futures`,
keyed by the request's message id; the tracker entry for an id stands for
the `Resolver` closure that settles exactly that future.  The timeout
watchdog of a request is an armed entry of `timeouts`; firing it runs the
`setTimeout` closure `() => reject(timeoutError)` of the source.
Transport sends are modelled by their outcome (`sendOk`) and the wire
message handed to the transport.
-/

namespace Libp2pRPC

/-- Byte buffers (`Uint8Array`) as lists of bytes. -/
abbrev Bytes := List Nat

/-- Peer identities are opaque comparable identifiers. -/
abbrev PeerId := String

/-- RPCError wire shape: `{ code, message }`. -/
structure RPCError where
  code : Int
  message : String
deriving Repr, DecidableEq

/-- Wire request: `id` absent means the message is a notification. -/
structure Request where
  id : Option Nat
  name : String
  params : Option Bytes
deriving Repr, DecidableEq

/-- Wire response, correlated by `id`. -/
structure Response where
  id : Nat
  result : Option Bytes
  error : Option RPCError
deriving Repr, DecidableEq

/-- RPCMessage: a decoded message with optional request / response parts,
as destructured by `const { request, response } = message`. -/
structure RPCMessage where
  request : Option Request
  response : Option Response
deriving Repr, DecidableEq

/-- State of one call's promise: pending until settled, and a settled
promise ignores any further resolve/reject. -/
inductive PromiseState where
  | pending
  | resolved (result : Option Bytes)
  | rejected (error : RPCError)
deriving Repr, DecidableEq

/-- Resolving a promise takes effect only while it is pending. -/
def PromiseState.settleResolve (p : PromiseState) (r : Option Bytes) : PromiseState :=
  match p with
  | .pending => .resolved r
  | other => other

/-- Rejecting a promise takes effect only while it is pending. -/
def PromiseState.settleReject (p : PromiseState) (e : RPCError) : PromiseState :=
  match p with
  | .pending => .rejected e
  | other => other

/-- A value thrown by a method handler, as classified by the
`catch (err)` block of `handleMessage`: an `RPCException`, a plain
`Error`, or any other value (whose `JSON.stringify` may itself throw,
modelled by `none`). -/
inductive Thrown where
  | rpcException (message : String) (code : Int)
  | jsError (message : String)
  | other (stringified : Option String)
deriving Repr, DecidableEq

/-- Error normalization of `handleMessage`'s catch block: an
`RPCException` is kept as-is; an `Error`'s message is wrapped at code 0;
any other value is stringified at code 0, falling back to
"unknown error" when stringification throws. -/
def normalizeThrown : Thrown → RPCError
  | .rpcException m c => { code := c, message := m }
  | .jsError m => { code := 0, message := m }
  | .other (some str) => { code := 0, message := str }
  | .other none => { code := 0, message := "unknown error" }

/-- A registered method: `(params, sender) => result`, possibly throwing. -/
abbrev RPCMethod := Option Bytes → PeerId → Except Thrown (Option Bytes)

/-- Modelled from the spec: `Messages.createRequest` (RPCMessages.js is
not under src/); a request message carrying the given name, id and
params. -/
def createRequest (name : String) (id : Nat) (params : Option Bytes) : RPCMessage :=
  { request := some { id := some id, name := name, params := params }, response := none }

/-- Modelled from the spec: `Messages.createNotification`; a request
message with absent id (notifications never receive a message id). -/
def createNotification (name : String) (params : Option Bytes) : RPCMessage :=
  { request := some { id := none, name := name, params := params }, response := none }

/-- Modelled from the spec: the reserved method-not-found error code of
the JSON-RPC convention the design borrows. -/
def methodNotFoundCode : Int := -32601

/-- Modelled from the spec: `Messages.createMethodNotFoundError`; an
error response carrying the request's id and the reserved code. -/
def createMethodNotFoundError (id : Nat) : RPCMessage :=
  { request := none,
    response := some { id := id, result := none,
                       error := some { code := methodNotFoundCode, message := "Method not found" } } }

/-- Modelled from the spec: `Messages.createError`; an error response
carrying the given id and `{ code, message }`. -/
def createError (id : Nat) (message : String) (code : Int) : RPCMessage :=
  { request := none,
    response := some { id := id, result := none,
                       error := some { code := code, message := message } } }

/-- Modelled from the spec: `Messages.createResponse`; a success
response carrying the given id and result. -/
def createResponse (id : Nat) (result : Option Bytes) : RPCMessage :=
  { request := none, response := some { id := id, result := result, error := none } }

/-- State of one RPC node: the method registry, the Call Tracker
(`msgPromises`: ids that currently hold a resolver), the futures of all
requests issued so far (keyed by message id), the armed timeout
watchdogs, the `genMsgId` counter and the configured timeout. -/
structure RPCState where
  methods : List (String × RPCMethod)
  msgPromises : List Nat
  futures : List (Nat × PromiseState)
  timeouts : List Nat
  nextId : Nat
  timeout : Int

/-- Map lookup on the method registry (`this.methods.get(name)`); the
registry is kept with the most recent registration first, so the first
match is the last `set`. -/
def lookupMethod : List (String × RPCMethod) → String → Option RPCMethod
  | [], _ => none
  | (n, m) :: rest, name => if n = name then some m else lookupMethod rest name

/-- Map.get on the futures, returning the state of the promise keyed by
`id`. -/
def getF : List (Nat × PromiseState) → Nat → Option PromiseState
  | [], _ => none
  | (k, p) :: rest, id => if k = id then some p else getF rest id

/-- Resolve the promise keyed by `id` (the captured `resolve` closure):
settles the first entry for that key, leaving every other key alone. -/
def settleResolveAt : List (Nat × PromiseState) → Nat → Option Bytes → List (Nat × PromiseState)
  | [], _, _ => []
  | (k, p) :: rest, id, r =>
    if k = id then (k, p.settleResolve r) :: rest
    else (k, p) :: settleResolveAt rest id r

/-- Reject the promise keyed by `id` (the captured `reject` closure). -/
def settleRejectAt : List (Nat × PromiseState) → Nat → RPCError → List (Nat × PromiseState)
  | [], _, _ => []
  | (k, p) :: rest, id, e =>
    if k = id then (k, p.settleReject e) :: rest
    else (k, p) :: settleRejectAt rest id e

/-- Map.delete on the tracker: remove the binding for `id`. -/
def removeId (l : List Nat) (id : Nat) : List Nat :=
  l.filter (fun x => x ≠ id)

/-- `addMethod(name, method)`: `this.methods.set(name, method)`; newest
binding first. -/
def addMethod (s : RPCState) (name : String) (method : RPCMethod) : RPCState :=
  { s with methods := (name, method) :: s.methods }

/-- Result of one `request` call up to (not including) awaiting the
response: the node state after the call, the wire message handed to
`handler.send`, and the outcome — the thrown `RPCError` on a send
failure, or the message id of the registered pending call. -/
structure RequestResult where
  state : RPCState
  wire : RPCMessage
  outcome : Except RPCError Nat

/-- `request(peer, name, params)`: allocate a message id with
`genMsgId`, build and send the request; on a send failure throw
`{ code := -32000, message := error.message }` without touching the
tracker; otherwise create the pending promise, register its resolver in
`msgPromises`, and arm the timeout watchdog unless `timeout < 0`. -/
def request (s : RPCState) (sendOk : Bool) (sendErrMsg : String)
    (name : String) (params : Option Bytes) : RequestResult :=
  let messageId := s.nextId
  let wire := createRequest name messageId params
  let s1 : RPCState := { s with nextId := s.nextId + 1 }
  if sendOk then
    let s2 : RPCState := { s1 with
      msgPromises := messageId :: s1.msgPromises,
      futures := (messageId, PromiseState.pending) :: s1.futures }
    let s3 : RPCState :=
      if s2.timeout < 0 then s2
      else { s2 with timeouts := messageId :: s2.timeouts }
    { state := s3, wire := wire, outcome := Except.ok messageId }
  else
    { state := s1, wire := wire, outcome := Except.error { code := -32000, message := sendErrMsg } }

/-- The timeout watchdog firing for a message id: the scheduled closure
`() => reject(timeoutError)` rejects that call's promise directly with
`RPCException("timeout", 0)`; the tracker entry is not touched. -/
def fireTimeout (s : RPCState) (id : Nat) : RPCState :=
  if id ∈ s.timeouts then
    { s with
      timeouts := removeId s.timeouts id,
      futures := settleRejectAt s.futures id { code := 0, message := "timeout" } }
  else s

/-- `notify(peer, name, params)`: build and send a notification; the
send's outcome is discarded by `.catch(() => ...)`, so the result does
not depend on `sendOk` and nothing is thrown or recorded. -/
def notify (s : RPCState) (sendOk : Bool) (name : String) (params : Option Bytes) :
    RPCState × RPCMessage :=
  (s, createNotification name params)

/-- The response half of `handleMessage`: look up the resolver for
`response.id`; if absent, return unchanged; otherwise delete the entry,
then resolve with `result` when no error is carried, else reject with
the carried error. -/
def handleResponse (s : RPCState) (resp : Response) : RPCState :=
  if resp.id ∈ s.msgPromises then
    match resp.error with
    | none =>
      { s with
        msgPromises := removeId s.msgPromises resp.id,
        futures := settleResolveAt s.futures resp.id resp.result }
    | some e =>
      { s with
        msgPromises := removeId s.msgPromises resp.id,
        futures := settleRejectAt s.futures resp.id e }
  else s

/-- `handleMessage(message, peer)`: dispatch a decoded inbound message.
A request is looked up in the registry: a missing method answers with a
method-not-found error when an id is present and is dropped otherwise;
a found method is invoked (its throw captured and normalized), and when
the request carries an id either an error response or a success
response is sent back.  A response settles the pending call via the
tracker.  Returns the new state and the list of messages sent to the
peer. -/
def handleMessage (s : RPCState) (msg : RPCMessage) (peer : PeerId) :
    RPCState × List RPCMessage :=
  match msg.request with
  | some req =>
    match lookupMethod s.methods req.name with
    | none =>
      match req.id with
      | none => (s, [])
      | some rid => (s, [createMethodNotFoundError rid])
    | some method =>
      let outcome := method req.params peer
      match req.id with
      | none => (s, [])
      | some rid =>
        match outcome with
        | .error thrown =>
          let e := normalizeThrown thrown
          (s, [createError rid e.message e.code])
        | .ok result => (s, [createResponse rid result])
  | none =>
    match msg.response with
    | some resp => (handleResponse s resp, [])
    | none => (s, [])

/-- Running a sequence of `request` calls (each with its own send
outcome), collecting the allocated message ids in order. -/
def runRequests : RPCState → List (Bool × String × Option Bytes) → RPCState × List Nat
  | s, [] => (s, [])
  | s, (ok, name, params) :: rest =>
    let r := request s ok "send failed" name params
    let tail := runRequests r.state rest
    (tail.1, s.nextId :: tail.2)

/-! ### Helper lemmas about the map operations -/

theorem getF_settleResolveAt_self (m : List (Nat × PromiseState)) (id : Nat) (r : Option Bytes) :
    getF (settleResolveAt m id r) id = (getF m id).map (fun p => p.settleResolve r) := by
  induction m with
  | nil => rfl
  | cons hd tl ih =>
    obtain ⟨k, p⟩ := hd
    by_cases h : k = id
    · simp [settleResolveAt, getF, h]
    · simp [settleResolveAt, getF, h, ih]

theorem getF_settleResolveAt_ne (m : List (Nat × PromiseState)) (id j : Nat) (r : Option Bytes)
    (h : j ≠ id) : getF (settleResolveAt m id r) j = getF m j := by
  induction m with
  | nil => rfl
  | cons hd tl ih =>
    obtain ⟨k, p⟩ := hd
    by_cases hk : k = id
    · subst hk
      simp [settleResolveAt, getF, Ne.symm h]
    · by_cases hj : k = j
      · simp [settleResolveAt, getF, hk, hj, h]
      · simp [settleResolveAt, getF, hk, hj, ih]

theorem getF_settleRejectAt_self (m : List (Nat × PromiseState)) (id : Nat) (e : RPCError) :
    getF (settleRejectAt m id e) id = (getF m id).map (fun p => p.settleReject e) := by
  induction m with
  | nil => rfl
  | cons hd tl ih =>
    obtain ⟨k, p⟩ := hd
    by_cases h : k = id
    · simp [settleRejectAt, getF, h]
    · simp [settleRejectAt, getF, h, ih]

theorem getF_settleRejectAt_ne (m : List (Nat × PromiseState)) (id j : Nat) (e : RPCError)
    (h : j ≠ id) : getF (settleRejectAt m id e) j = getF m j := by
  induction m with
  | nil => rfl
  | cons hd tl ih =>
    obtain ⟨k, p⟩ := hd
    by_cases hk : k = id
    · subst hk
      simp [settleRejectAt, getF, Ne.symm h]
    · by_cases hj : k = j
      · simp [settleRejectAt, getF, hk, hj, h]
      · simp [settleRejectAt, getF, hk, hj, ih]

theorem mem_removeId (l : List Nat) (id j : Nat) :
    j ∈ removeId l id ↔ j ∈ l ∧ j ≠ id := by
  simp [removeId, List.mem_filter]

theorem settleResolve_of_settled (p : PromiseState) (r : Option Bytes)
    (h : p ≠ PromiseState.pending) : p.settleResolve r = p := by
  cases p <;> simp_all [PromiseState.settleResolve]

theorem settleReject_of_settled (p : PromiseState) (e : RPCError)
    (h : p ≠ PromiseState.pending) : p.settleReject e = p := by
  cases p <;> simp_all [PromiseState.settleReject]

theorem request_state_nextId (s : RPCState) (ok : Bool) (msg name : String)
    (params : Option Bytes) : (request s ok msg name params).state.nextId = s.nextId + 1 := by
  cases ok
  · rfl
  · by_cases h : s.timeout < 0 <;> simp [request, h]

theorem runRequests_ids (s : RPCState) (calls : List (Bool × String × Option Bytes)) :
    (runRequests s calls).2 = List.range' s.nextId calls.length := by
  induction calls generalizing s with
  | nil => rfl
  | cons c rest ih =>
    obtain ⟨ok, name, params⟩ := c
    simp [runRequests, ih, request_state_nextId, List.range'_succ]

theorem runRequests_nextId (s : RPCState) (calls : List (Bool × String × Option Bytes)) :
    (runRequests s calls).1.nextId = s.nextId + calls.length := by
  induction calls generalizing s with
  | nil => rfl
  | cons c rest ih =>
    obtain ⟨ok, name, params⟩ := c
    simp [runRequests, ih, request_state_nextId]
    omega

/-! ### Claim theorems -/

/-- C1: when an inbound response carries the id of a pending call,
`handleMessage` settles exactly that call's future — resolving it with
the response's result when no error is carried, rejecting it with the
carried RPCError otherwise — removes that id's tracker entry, sends
nothing back, and leaves every other tracker entry, every other future,
and the method registry unchanged. -/
theorem C1_response_settles_exactly_that_call (s : RPCState) (resp : Response) (peer : PeerId)
    (hmem : resp.id ∈ s.msgPromises)
    (hpend : getF s.futures resp.id = some PromiseState.pending) :
    (handleMessage s { request := none, response := some resp } peer).2 = [] ∧
    (resp.error = none →
      getF (handleMessage s { request := none, response := some resp } peer).1.futures resp.id
        = some (PromiseState.resolved resp.result)) ∧
    (∀ e, resp.error = some e →
      getF (handleMessage s { request := none, response := some resp } peer).1.futures resp.id
        = some (PromiseState.rejected e)) ∧
    resp.id ∉ (handleMessage s { request := none, response := some resp } peer).1.msgPromises ∧
    (∀ j, j ≠ resp.id →
      ((j ∈ (handleMessage s { request := none, response := some resp } peer).1.msgPromises ↔
          j ∈ s.msgPromises) ∧
        getF (handleMessage s { request := none, response := some resp } peer).1.futures j
          = getF s.futures j)) ∧
    (handleMessage s { request := none, response := some resp } peer).1.methods = s.methods := by
  have hred : handleMessage s { request := none, response := some resp } peer
      = (handleResponse s resp, []) := rfl
  rw [hred]
  cases herr : resp.error with
  | none =>
    refine ⟨rfl, ?_, ?_, ?_, ?_, ?_⟩
    · intro _
      simp [handleResponse, hmem, herr, getF_settleResolveAt_self, hpend,
        PromiseState.settleResolve]
    · intro e he
      simp at he
    · simp [handleResponse, hmem, herr, mem_removeId]
    · intro j hj
      constructor
      · simp [handleResponse, hmem, herr, mem_removeId, hj]
      · simp [handleResponse, hmem, herr, getF_settleResolveAt_ne _ _ _ _ hj]
    · simp [handleResponse, hmem, herr]
  | some e0 =>
    refine ⟨rfl, ?_, ?_, ?_, ?_, ?_⟩
    · intro hnone
      simp at hnone
    · intro e he
      injection he with he2
      subst he2
      simp [handleResponse, hmem, herr, getF_settleRejectAt_self, hpend,
        PromiseState.settleReject]
    · simp [handleResponse, hmem, herr, mem_removeId]
    · intro j hj
      constructor
      · simp [handleResponse, hmem, herr, mem_removeId, hj]
      · simp [handleResponse, hmem, herr, getF_settleRejectAt_ne _ _ _ _ hj]
    · simp [handleResponse, hmem, herr]

/-- Concrete node state witnessing C1: two pending calls 7 and 3. -/
def exC1 : RPCState :=
  { methods := [], msgPromises := [7, 3],
    futures := [(7, PromiseState.pending), (3, PromiseState.pending)],
    timeouts := [], nextId := 8, timeout := 5000 }

/-- C1 witness: a response for id 7 resolves call 7 with its result and
leaves pending call 3 untouched. -/
theorem C1_witness :
    (7 : Nat) ∈ exC1.msgPromises ∧
    getF exC1.futures 7 = some PromiseState.pending ∧
    getF (handleMessage exC1
        { request := none, response := some { id := 7, result := some [1, 2], error := none } }
        "peerA").1.futures 7 = some (PromiseState.resolved (some [1, 2])) ∧
    getF (handleMessage exC1
        { request := none, response := some { id := 7, result := some [1, 2], error := none } }
        "peerA").1.futures 3 = getF exC1.futures 3 := by
  have h := C1_response_settles_exactly_that_call exC1
    { id := 7, result := some [1, 2], error := none } "peerA" (by decide) (by rfl)
  exact ⟨by decide, rfl, h.2.1 rfl, (h.2.2.2.2.1 3 (by decide)).2⟩

/-- C4: a request whose transport send fails throws an RPCError with
code -32000 carrying the transport error's message, and creates no
entry in the Call Tracker: tracker, futures, watchdogs and registry are
exactly as before the call. -/
theorem C4_send_failure_no_tracker_entry (s : RPCState) (name msg : String)
    (params : Option Bytes) :
    (request s false msg name params).outcome
      = Except.error { code := -32000, message := msg } ∧
    (request s false msg name params).state.msgPromises = s.msgPromises ∧
    (request s false msg name params).state.futures = s.futures ∧
    (request s false msg name params).state.timeouts = s.timeouts ∧
    (request s false msg name params).state.methods = s.methods :=
  ⟨rfl, rfl, rfl, rfl, rfl⟩

/-- C8: a response whose id has no pending tracker entry is discarded
without error and without side effects: the whole state (registry,
tracker, futures, watchdogs) is returned unchanged and nothing is
sent. -/
theorem C8_unknown_id_response_discarded (s : RPCState) (resp : Response) (peer : PeerId)
    (h : resp.id ∉ s.msgPromises) :
    handleMessage s { request := none, response := some resp } peer = (s, []) := by
  have hred : handleMessage s { request := none, response := some resp } peer
      = (handleResponse s resp, []) := rfl
  rw [hred]
  simp [handleResponse, h]

/-- Concrete node state witnessing C8: one pending call with id 2. -/
def exC8 : RPCState :=
  { methods := [], msgPromises := [2], futures := [(2, PromiseState.pending)],
    timeouts := [], nextId := 3, timeout := 5000 }

/-- C8 witness: a response for the unknown id 9 leaves the state
unchanged and sends nothing. -/
theorem C8_witness :
    (9 : Nat) ∉ exC8.msgPromises ∧
    handleMessage exC8
      { request := none, response := some { id := 9, result := none, error := none } } "peerB"
      = (exC8, []) :=
  ⟨by decide,
    C8_unknown_id_response_discarded exC8 { id := 9, result := none, error := none } "peerB"
      (by decide)⟩

/-- C9: the message ids allocated by N consecutive request calls are
`s.nextId, s.nextId + 1, ...` — strictly increasing and pairwise
distinct (non-negative by construction, the counter being a natural
that starts at 0) — and the message built by `notify` is a request with
absent id: notifications never receive a message id. -/
theorem C9_monotonic_ids (s : RPCState) (calls : List (Bool × String × Option Bytes))
    (b : Bool) (name : String) (params : Option Bytes) :
    (runRequests s calls).2 = List.range' s.nextId calls.length ∧
    List.Pairwise (· < ·) (runRequests s calls).2 ∧
    (runRequests s calls).2.Nodup ∧
    (notify s b name params).2.request = some { id := none, name := name, params := params } := by
  refine ⟨runRequests_ids s calls, ?_, ?_, rfl⟩
  · rw [runRequests_ids]
    exact List.pairwise_lt_range' _ _
  · rw [runRequests_ids]
    exact List.nodup_range' _ _

/-- C10: `request` allocates its message id before attempting the
transport send — the wire message carries `s.nextId` and the counter is
incremented whether or not the send succeeds, a failed send yielding
the -32000 error — so after any interleaving of successful and failed
requests the next id to be allocated is strictly larger than every
previously allocated id. -/
theorem C10_id_allocated_before_send (s : RPCState) (ok : Bool) (name msg : String)
    (params : Option Bytes) (calls : List (Bool × String × Option Bytes)) :
    (request s ok msg name params).wire = createRequest name s.nextId params ∧
    (request s ok msg name params).state.nextId = s.nextId + 1 ∧
    (request s false msg name params).outcome
      = Except.error { code := -32000, message := msg } ∧
    (runRequests s calls).1.nextId = s.nextId + calls.length ∧
    ((runRequests s calls).2.all
      (fun i => decide (i < (runRequests s calls).1.nextId))) = true := by
  refine ⟨?_, request_state_nextId s ok msg name params, rfl, runRequests_nextId s calls, ?_⟩
  · cases ok <;> rfl
  · rw [List.all_eq_true]
    intro i hi
    rw [runRequests_ids] at hi
    have hmem := List.mem_range'_1.mp hi
    rw [runRequests_nextId]
    simp only [decide_eq_true_eq]
    omega

/-- Concrete node state used for the C2 counterexample: one pending
call 4 with an armed watchdog. -/
def exC2 : RPCState :=
  { methods := [], msgPromises := [4], futures := [(4, PromiseState.pending)],
    timeouts := [4], nextId := 5, timeout := 5000 }

/-- C2 counterexample: the timeout outcome fires on call 4 — its future
becomes rejected with the timeout error — yet its tracker entry is NOT
removed: the claim that the tracker enforces at-most-once settlement by
removing the entry before fulfilling it, for all three outcomes, is
false, because the scheduled closure rejects the promise without
touching the tracker. -/
theorem C2_counterexample :
    getF (fireTimeout exC2 4).futures 4
      = some (PromiseState.rejected { code := 0, message := "timeout" }) ∧
    (4 : Nat) ∈ (fireTimeout exC2 4).msgPromises := by
  constructor
  · rfl
  · decide

/-- C2 (amended): at most one of resolve, reject and timeout takes
effect on a call's future — once the future is settled, a later timeout
firing or inbound response for the same id leaves it unchanged — and
the response path removes the tracker entry before fulfilling; the
timeout path, however, settles the future without removing the tracker
entry, so settled-promise semantics, not removal, is what guards it. -/
theorem C2_at_most_one_outcome (s : RPCState) (id : Nat) (p : PromiseState)
    (resp : Response) (peer : PeerId)
    (hid : resp.id = id)
    (hget : getF s.futures id = some p)
    (hsettled : p ≠ PromiseState.pending) :
    getF (fireTimeout s id).futures id = some p ∧
    getF (handleMessage s { request := none, response := some resp } peer).1.futures id
      = some p ∧
    id ∉ (handleMessage s { request := none, response := some resp } peer).1.msgPromises := by
  subst hid
  have hred : handleMessage s { request := none, response := some resp } peer
      = (handleResponse s resp, []) := rfl
  rw [hred]
  refine ⟨?_, ?_, ?_⟩
  · by_cases ht : resp.id ∈ s.timeouts
    · simp [fireTimeout, ht, getF_settleRejectAt_self, hget,
        settleReject_of_settled p _ hsettled]
    · simp [fireTimeout, ht, hget]
  · by_cases hmem : resp.id ∈ s.msgPromises
    · cases herr : resp.error with
      | none =>
        simp [handleResponse, hmem, herr, getF_settleResolveAt_self, hget,
          settleResolve_of_settled p _ hsettled]
      | some e =>
        simp [handleResponse, hmem, herr, getF_settleRejectAt_self, hget,
          settleReject_of_settled p _ hsettled]
    · simp [handleResponse, hmem, hget]
  · by_cases hmem : resp.id ∈ s.msgPromises
    · cases herr : resp.error with
      | none => simp [handleResponse, hmem, herr, mem_removeId]
      | some e => simp [handleResponse, hmem, herr, mem_removeId]
    · simp [handleResponse, hmem]

/-- Concrete node state witnessing the amended C2: call 6 already timed
out (future rejected) but, as the code leaves it, still tracked. -/
def exC2w : RPCState :=
  { methods := [], msgPromises := [6],
    futures := [(6, PromiseState.rejected { code := 0, message := "timeout" })],
    timeouts := [6], nextId := 7, timeout := 5000 }

/-- C2 witness: a late response for the timed-out call 6 removes the
stale tracker entry but cannot change the already-rejected future, and
a second timeout firing also leaves it unchanged. -/
theorem C2_witness :
    ({ id := 6, result := some [9], error := none } : Response).id = 6 ∧
    getF exC2w.futures 6
      = some (PromiseState.rejected { code := 0, message := "timeout" }) ∧
    PromiseState.rejected { code := 0, message := "timeout" } ≠ PromiseState.pending ∧
    getF (fireTimeout exC2w 6).futures 6
      = some (PromiseState.rejected { code := 0, message := "timeout" }) ∧
    getF (handleMessage exC2w
        { request := none, response := some { id := 6, result := some [9], error := none } }
        "peerC").1.futures 6
      = some (PromiseState.rejected { code := 0, message := "timeout" }) ∧
    (6 : Nat) ∉ (handleMessage exC2w
        { request := none, response := some { id := 6, result := some [9], error := none } }
        "peerC").1.msgPromises := by
  have h := C2_at_most_one_outcome exC2w 6
    (PromiseState.rejected { code := 0, message := "timeout" })
    { id := 6, result := some [9], error := none } "peerC" rfl rfl (by decide)
  exact ⟨rfl, rfl, by decide, h.1, h.2.1, h.2.2⟩

/-- Concrete node state used for the C3 counterexample and witness:
fresh node with configured timeout 50. -/
def exC3 : RPCState :=
  { methods := [], msgPromises := [], futures := [], timeouts := [],
    nextId := 0, timeout := 50 }

/-- C3 counterexample: issue a request with configured timeout 50 (the
watchdog for id 0 is armed) and let the watchdog fire: the future is
rejected with the timeout error, but — contrary to the claim — the
tracker entry for id 0 is NOT removed. -/
theorem C3_counterexample :
    getF (fireTimeout (request exC3 true "e" "echo" none).state 0).futures 0
      = some (PromiseState.rejected { code := 0, message := "timeout" }) ∧
    (0 : Nat) ∈ (fireTimeout (request exC3 true "e" "echo" none).state 0).msgPromises := by
  constructor
  · rfl
  · decide

/-- C3 (amended): for a call registered under a non-negative configured
timeout a watchdog is armed, and firing it before any response rejects
the call's future with RPCError code 0 and message "timeout" — but the
tracker entry is left in place, not removed; for a negative configured
timeout no watchdog is scheduled and the call waits indefinitely. -/
theorem C3_timeout_rejects_without_removal (s : RPCState) (t : Int) (name msg : String)
    (params : Option Bytes)
    (hnn : 0 ≤ s.timeout) (ht : t < 0) :
    s.nextId ∈ (request s true msg name params).state.timeouts ∧
    getF (fireTimeout (request s true msg name params).state s.nextId).futures s.nextId
      = some (PromiseState.rejected { code := 0, message := "timeout" }) ∧
    (fireTimeout (request s true msg name params).state s.nextId).msgPromises
      = (request s true msg name params).state.msgPromises ∧
    s.nextId ∈ (request s true msg name params).state.msgPromises ∧
    (request { s with timeout := t } true msg name params).state.timeouts = s.timeouts := by
  have hlt : ¬s.timeout < 0 := not_lt.mpr hnn
  have hr : (request s true msg name params).state
      = { s with
          nextId := s.nextId + 1,
          msgPromises := s.nextId :: s.msgPromises,
          futures := (s.nextId, PromiseState.pending) :: s.futures,
          timeouts := s.nextId :: s.timeouts } := by
    simp [request, hlt]
  refine ⟨?_, ?_, ?_, ?_, ?_⟩
  · rw [hr]
    simp
  · rw [hr]
    simp [fireTimeout, settleRejectAt, getF, PromiseState.settleReject]
  · rw [hr]
    simp [fireTimeout]
  · rw [hr]
    simp
  · simp [request, ht]

/-- C3 witness: on the concrete fresh node the watchdog for id 0 is
armed under timeout 50, and arming is skipped under timeout -1. -/
theorem C3_witness :
    (0 : Int) ≤ exC3.timeout ∧ (-1 : Int) < 0 ∧
    (0 : Nat) ∈ (request exC3 true "e" "echo" none).state.timeouts ∧
    (request { exC3 with timeout := -1 } true "e" "echo" none).state.timeouts
      = exC3.timeouts := by
  have h := C3_timeout_rejects_without_removal exC3 (-1) "echo" "e" none
    (by decide) (by decide)
  exact ⟨by decide, by decide, h.1, h.2.2.2.2⟩

/-- C5: when an inbound id-bearing request's handler throws, the thrown
value is normalized into an RPCError before the error response is sent
— an already-structured RPC error keeps its code and message, a generic
error's message is wrapped at code 0, any other thrown value is
stringified at code 0 with the fixed fallback "unknown error" when
stringification itself throws — and the error response sent carries the
request's id. -/
theorem C5_handler_error_normalized (s : RPCState) (req : Request) (rid : Nat) (peer : PeerId)
    (method : RPCMethod) (thrown : Thrown)
    (hid : req.id = some rid)
    (hm : lookupMethod s.methods req.name = some method)
    (hout : method req.params peer = Except.error thrown) :
    handleMessage s { request := some req, response := none } peer
      = (s, [createError rid (normalizeThrown thrown).message (normalizeThrown thrown).code]) ∧
    createError rid (normalizeThrown thrown).message (normalizeThrown thrown).code
      = { request := none,
          response := some { id := rid, result := none,
                             error := some (normalizeThrown thrown) } } ∧
    (∀ m c, normalizeThrown (Thrown.rpcException m c) = { code := c, message := m }) ∧
    (∀ m, normalizeThrown (Thrown.jsError m) = { code := 0, message := m }) ∧
    (∀ str, normalizeThrown (Thrown.other (some str)) = { code := 0, message := str }) ∧
    normalizeThrown (Thrown.other none) = { code := 0, message := "unknown error" } := by
  refine ⟨?_, rfl, fun m c => rfl, fun m => rfl, fun str => rfl, rfl⟩
  simp [handleMessage, hm, hid, hout]

/-- Handler used by the C5 witness: always throws a plain Error. -/
def exC5handler : RPCMethod := fun _ _ => Except.error (Thrown.jsError "kaboom")

/-- Concrete node state witnessing C5. -/
def exC5 : RPCState :=
  { methods := [("boom", exC5handler)], msgPromises := [], futures := [],
    timeouts := [], nextId := 0, timeout := 5000 }

/-- C5 witness: a request for method "boom" with id 9 gets back one
error response with id 9 and the normalized error code 0, message
"kaboom". -/
theorem C5_witness :
    ({ id := some 9, name := "boom", params := none } : Request).id = some 9 ∧
    lookupMethod exC5.methods "boom" = some exC5handler ∧
    exC5handler none "peerD" = Except.error (Thrown.jsError "kaboom") ∧
    (handleMessage exC5
        { request := some { id := some 9, name := "boom", params := none }, response := none }
        "peerD").2
      = [{ request := none,
           response := some { id := 9, result := none,
                              error := some { code := 0, message := "kaboom" } } }] := by
  have h := C5_handler_error_normalized exC5
    { id := some 9, name := "boom", params := none } 9 "peerD" exC5handler
    (Thrown.jsError "kaboom") rfl rfl rfl
  refine ⟨rfl, rfl, rfl, ?_⟩
  have h2 := congrArg Prod.snd h.1
  simpa [normalizeThrown, createError] using h2

/-- C6: all notification failures are swallowed — an inbound request
with absent id produces no response and no state change whatever the
handler does (missing, succeeding or throwing), and an outbound notify
returns normally with the node state untouched whether or not the
transport send succeeds, its wire message being a notification. -/
theorem C6_notification_failures_swallowed (s : RPCState) (req : Request) (peer : PeerId)
    (name : String) (params : Option Bytes)
    (hid : req.id = none) :
    handleMessage s { request := some req, response := none } peer = (s, []) ∧
    (∀ b : Bool, notify s b name params = (s, createNotification name params)) ∧
    (createNotification name params).request
      = some { id := none, name := name, params := params } := by
  refine ⟨?_, fun b => rfl, rfl⟩
  cases hm : lookupMethod s.methods req.name <;> simp [handleMessage, hm, hid]

/-- Handler used by the C6 witness: always throws. -/
def exC6handler : RPCMethod := fun _ _ => Except.error (Thrown.jsError "explode")

/-- Concrete node state witnessing C6. -/
def exC6 : RPCState :=
  { methods := [("explode", exC6handler)], msgPromises := [], futures := [],
    timeouts := [], nextId := 0, timeout := 5000 }

/-- C6 witness: an inbound notification for the throwing handler
"explode" yields no response and no state change, and a notify whose
send fails still returns the unchanged state. -/
theorem C6_witness :
    ({ id := none, name := "explode", params := none } : Request).id = none ∧
    handleMessage exC6
      { request := some { id := none, name := "explode", params := none }, response := none }
      "peerE" = (exC6, []) ∧
    notify exC6 false "explode" none = (exC6, createNotification "explode" none) := by
  have h := C6_notification_failures_swallowed exC6
    { id := none, name := "explode", params := none } "peerE" "explode" none rfl
  exact ⟨rfl, h.1, h.2.1 false⟩

/-- C7: an inbound request carrying an id whose name has no registered
handler is answered with a method-not-found error response carrying
that same id and the reserved code -32601, with no local error and no
state change. -/
theorem C7_method_not_found (s : RPCState) (req : Request) (rid : Nat) (peer : PeerId)
    (hid : req.id = some rid)
    (hm : lookupMethod s.methods req.name = none) :
    handleMessage s { request := some req, response := none } peer
      = (s, [createMethodNotFoundError rid]) ∧
    createMethodNotFoundError rid
      = { request := none,
          response := some { id := rid, result := none,
                             error := some { code := methodNotFoundCode,
                                             message := "Method not found" } } } ∧
    methodNotFoundCode = -32601 := by
  refine ⟨?_, rfl, rfl⟩
  simp [handleMessage, hm, hid]

/-- Concrete node state witnessing C7: empty registry. -/
def exC7 : RPCState :=
  { methods := [], msgPromises := [], futures := [], timeouts := [],
    nextId := 0, timeout := 5000 }

/-- C7 witness: a request for the unregistered method "missing" with id
4 is answered by the method-not-found error response for id 4. -/
theorem C7_witness :
    ({ id := some 4, name := "missing", params := none } : Request).id = some 4 ∧
    lookupMethod exC7.methods "missing" = none ∧
    handleMessage exC7
      { request := some { id := some 4, name := "missing", params := none }, response := none }
      "peerF" = (exC7, [createMethodNotFoundError 4]) := by
  have h := C7_method_not_found exC7
    { id := some 4, name := "missing", params := none } 4 "peerF" rfl rfl
  exact ⟨rfl, rfl, h.1⟩

end Libp2pRPC
